import Mathlib

/-!
# Verification of the DeepCode cross-review consensus and iterative repair loop

Shallow embedding of the algorithmic core of the repository:

* `iterative_code_improvement.py` — `IterativeCodeImprover` (JSON-span
  extraction, heuristic text parsing, keyword consensus, score averaging,
  convergence decision, codex entitlement check);
* `quick_cross_review_and_fix.py` — locality consensus matching, average
  score, quick codex status classification;
* `workflows/code_review_workflow_gemini.py` — `_aggregate_reviews`.

Python strings are modelled as `List Char`; Python floats are modelled as
rationals `ℚ` (the binary rounding of IEEE floats is abstracted away; every
claim under study is about exact decimal arithmetic on small reviewer
scores); Python ints are `Int`.
-/

namespace DeepCode

/-! ## Python string primitives -/

/-- The backtick character (used by the Markdown fences in reviewer output). -/
def btick : Char := Char.ofNat 96

/-- The opening-brace character of a JSON object. -/
def lbrace : Char := Char.ofNat 123

/-- The closing-brace character of a JSON object. -/
def rbrace : Char := Char.ofNat 125

/-- Python's `\s` / `str.strip` whitespace class, restricted to ASCII:
space, tab, newline, carriage return, vertical tab, form feed. -/
def isPySpace (c : Char) : Bool :=
  c == ' ' || c == '\t' || c == '\n' || c == '\r' || c == '\x0b' || c == '\x0c'

/-- Index of the first occurrence of `needle` in `hay`
(`str.find` without the `-1` encoding). -/
def findSub : List Char → List Char → Option Nat
  | [], needle => if needle.isPrefixOf [] then some 0 else none
  | c :: t, needle =>
    if needle.isPrefixOf (c :: t) then some 0
    else (findSub t needle).map (· + 1)

/-- Index of the last occurrence of `needle` in `hay`
(`str.rfind` without the `-1` encoding). -/
def rfindSub : List Char → List Char → Option Nat
  | [], needle => if needle.isPrefixOf [] then some 0 else none
  | c :: t, needle =>
    match rfindSub t needle with
    | some i => some (i + 1)
    | none => if needle.isPrefixOf (c :: t) then some 0 else none

/-- Python `hay.find(needle)`: first index, or `-1` when absent. -/
def pyFind (hay needle : List Char) : Int :=
  match findSub hay needle with
  | some i => i
  | none => -1

/-- Python `hay.find(needle, start)` for a nonnegative `start`
(all call sites in the source pass a nonnegative start index). -/
def pyFindFrom (hay needle : List Char) (start : Int) : Int :=
  match findSub (hay.drop start.toNat) needle with
  | some i => ((start.toNat + i : Nat) : Int)
  | none => -1

/-- Python `hay.rfind(needle)`: last index, or `-1` when absent. -/
def pyRfind (hay needle : List Char) : Int :=
  match rfindSub hay needle with
  | some i => i
  | none => -1

/-- Python `needle in hay` (substring containment). -/
def pyContains (hay needle : List Char) : Bool :=
  (findSub hay needle).isSome

/-- Python slicing `l[a:b]` with int indices (negative indices count from
the end, out-of-range indices are clamped). -/
def pySlice (l : List Char) (a b : Int) : List Char :=
  let n : Int := l.length
  let a' := (if a < 0 then max 0 (n + a) else min a n).toNat
  let b' := (if b < 0 then max 0 (n + b) else min b n).toNat
  (l.take b').drop a'

/-- Python `str.strip()` (ASCII whitespace, both ends). -/
def stripList (l : List Char) : List Char :=
  ((l.dropWhile isPySpace).reverse.dropWhile isPySpace).reverse

/-! ## Structured Extraction: JSON-span selection

`IterativeCodeImprover.run_gemini_review` (lines 135–149) and
`IterativeCodeImprover.run_codex_review` (lines 236–249).  Both first look
for a ```json fenced block; failing that, the Gemini path takes the span
from the **first** `{` to the last `}`, while the Codex path takes the span
from the **last** `{` to the last `}`; failing both, the raw output is
passed through unchanged.  (The quick script's `run_gemini_review` and
`run_codex_review` use the same two span heuristics.) -/

/-- The fence opener `"```json"`. -/
def fenceJson : List Char := "```json".data

/-- The fence closer `"```"`. -/
def tick3 : List Char := "```".data

/-- JSON-span extraction of `run_gemini_review`: fenced block, else the
span from the first `{` to the last `}`, else the whole output. -/
def extract_json_gemini (output : List Char) : List Char :=
  if pyContains output fenceJson then
    let json_start := pyFind output fenceJson + 7
    let json_end := pyFindFrom output tick3 json_start
    stripList (pySlice output json_start json_end)
  else if pyContains output [lbrace] then
    let json_start := pyFind output [lbrace]
    let json_end := pyRfind output [rbrace] + 1
    pySlice output json_start json_end
  else output

/-- JSON-span extraction of `run_codex_review`: fenced block, else the
span from the **last** `{` to the last `}`, else the whole output. -/
def extract_json_codex (output : List Char) : List Char :=
  if pyContains output fenceJson then
    let json_start := pyFind output fenceJson + 7
    let json_end := pyFindFrom output tick3 json_start
    stripList (pySlice output json_start json_end)
  else if pyContains output [lbrace] then
    let json_start := pyRfind output [lbrace]
    let json_end := pyRfind output [rbrace] + 1
    pySlice output json_start json_end
  else output

/-! ## Heuristic text parser

`IterativeCodeImprover.parse_text_review` (lines 276–299).  Two regex
scans over the raw text, embedded as explicit left-to-right scanners with
`re.findall` semantics (first match at each position, scanning resumes at
the end of a match, or one character further on failure):

* `score[:\s]+(\d+(?:\.\d+)?)/10` with `re.IGNORECASE`;
* `(CRITICAL|HIGH|MEDIUM|LOW)[:\s]+(.*?)(?=\n|$)` with `re.IGNORECASE`.
-/

/-- Case-insensitive literal match of `kw` at the head of `l`
(`re.IGNORECASE` on a literal; ASCII case folding). -/
def ciStarts : List Char → List Char → Bool
  | [], _ => true
  | _ :: _, [] => false
  | k :: ks, c :: cs => (c.toLower == k.toLower) && ciStarts ks cs

/-- The regex character class `[:\s]` separating a keyword from its payload. -/
def sepClass (c : Char) : Bool := c == ':' || isPySpace c

/-- Numeric value of a run of ASCII digits. -/
def digitsToNat (ds : List Char) : Nat :=
  ds.foldl (fun n c => 10 * n + (c.toNat - 48)) 0

/-- Value of the captured group `d1` or `d1.d2` under Python `float(...)`. -/
def scoreVal (d1 d2 : List Char) : ℚ :=
  (digitsToNat d1 : ℚ) + (digitsToNat d2 : ℚ) / (10 : ℚ) ^ d2.length

/-- One attempted match of `score[:\s]+(\d+(?:\.\d+)?)/10` (IGNORECASE) at
the head of `l`; on success returns the captured digit runs (integer part,
fraction part) and the remainder of the text after the match.  Greedy
sub-matches need no backtracking here: the character after the `[:\s]+` run
must be a digit, the character after a digit run must be `.` or `/`, so
shrinking a greedy run can never create a match. -/
def matchScoreAt (l : List Char) : Option ((List Char × List Char) × List Char) :=
  if ciStarts "score".data l then
    let r1 := l.drop 5
    let seps := r1.takeWhile sepClass
    if seps.isEmpty then none
    else
      let r2 := r1.drop seps.length
      let d1 := r2.takeWhile Char.isDigit
      if d1.isEmpty then none
      else
        let r3 := r2.drop d1.length
        match r3 with
        | '.' :: r4 =>
          let d2 := r4.takeWhile Char.isDigit
          if d2.isEmpty then none
          else
            let r5 := r4.drop d2.length
            if "/10".data.isPrefixOf r5 then some ((d1, d2), r5.drop 3)
            else none
        | _ =>
          if "/10".data.isPrefixOf r3 then some ((d1, []), r3.drop 3)
          else none
  else none

/-- `re.findall` driver for the score pattern.  The fuel argument starts at
the text length; every step (failed position or completed match) consumes
at least one character, so the initial fuel always suffices. -/
def scanScoreTokensAux : Nat → List Char → List (List Char × List Char)
  | 0, _ => []
  | _ + 1, [] => []
  | fuel + 1, c :: t =>
    match matchScoreAt (c :: t) with
    | some (d, rest) => d :: scanScoreTokensAux fuel rest
    | none => scanScoreTokensAux fuel t

/-- All captured digit groups of the `score .../10` pattern, left to
right. -/
def scanScoreTokens (text : List Char) : List (List Char × List Char) :=
  scanScoreTokensAux text.length text

/-- All captured values of the `score .../10` pattern, left to right
(Python applies `float(...)` to each captured group). -/
def scanScores (text : List Char) : List ℚ :=
  (scanScoreTokens text).map (fun d => scoreVal d.1 d.2)

/-- The four severity alternatives, in the regex's alternation order. -/
def sevKeywords : List (List Char) :=
  ["CRITICAL".data, "HIGH".data, "MEDIUM".data, "LOW".data]

/-- An issue produced by the text-mining fallback: a severity tag and a
free-text description — deliberately no line number field, matching the
dicts built at lines 289–293 of the source. -/
structure TextIssue where
  severity : List Char
  description : List Char
deriving DecidableEq

/-- One attempted match of `(CRITICAL|HIGH|MEDIUM|LOW)[:\s]+(.*?)(?=\n|$)`
(IGNORECASE) at the head of `l`.  The four alternatives start with distinct
letters, so at most one can match at a given position.  `[:\s]+` consumes
greedily (it may even cross a newline); the lazy `(.*?)` then grows until
the `(?=\n|$)` lookahead holds, i.e. the description is everything up to
the next newline.  The source uppercases the matched severity and strips
the description. -/
def matchSevAt (l : List Char) : Option (TextIssue × List Char) :=
  match sevKeywords.find? (fun kw => ciStarts kw l) with
  | none => none
  | some kw =>
    let matched := l.take kw.length
    let r1 := l.drop kw.length
    let seps := r1.takeWhile sepClass
    if seps.isEmpty then none
    else
      let r2 := r1.drop seps.length
      let desc := r2.takeWhile (fun c => !(c == '\n'))
      let rest := r2.drop desc.length
      some (⟨matched.map Char.toUpper, stripList desc⟩, rest)

/-- `re.findall` driver for the severity pattern (same fuel discipline as
`scanScoresAux`). -/
def scanSevsAux : Nat → List Char → List TextIssue
  | 0, _ => []
  | _ + 1, [] => []
  | fuel + 1, c :: t =>
    match matchSevAt (c :: t) with
    | some (iss, rest) => iss :: scanSevsAux fuel rest
    | none => scanSevsAux fuel t

/-- All severity-pattern matches, left to right, anywhere in the text. -/
def scanSevs (text : List Char) : List TextIssue :=
  scanSevsAux text.length text

/-- Result record of `parse_text_review`. -/
structure TextParsed where
  overall_score : ℚ
  critical_issues : List TextIssue
deriving DecidableEq

/-- `IterativeCodeImprover.parse_text_review`: average of all `score .../10`
matches (default `5.0` when none), and the first five severity-pattern
matches as issues. -/
def parse_text_review (text : List Char) : TextParsed :=
  let scores := scanScores text
  let avg : ℚ := if scores.isEmpty then 5 else scores.sum / (scores.length : ℚ)
  ⟨avg, (scanSevs text).take 5⟩

/-! ## Review outcome statuses and score aggregation

`IterativeCodeImprover.generate_consensus_report` (lines 310–336).  The
source encodes statuses as the strings `"success"`, `"partial"`,
`"failed"`, `"skipped"`; `partial` is a Lean keyword, so that status is
named `fallback` here (it is the status of a review whose JSON decoding
failed and whose data came from `parse_text_review`). -/

/-- Review status of one tool invocation. -/
inductive RStatus where
  | success
  | fallback
  | failed
  | skipped
deriving DecidableEq

/-- `status in ["success", "partial"]` — the test at lines 322 and 328
selecting which providers contribute a score. -/
def contributes : RStatus → Bool
  | .success => true
  | .fallback => true
  | .failed => false
  | .skipped => false

/-- A provider result as consumed by the consensus report: its status and
`data.get("overall_score", 0)` (the `get` default `0` is already folded into
the field). -/
structure ToolResult where
  status : RStatus
  overall_score : ℚ

/-- The `scores` list built at lines 321–331: the Gemini score when its
status is success/partial, then the Codex score likewise. -/
def consensus_scores (g c : ToolResult) : List ℚ :=
  (if contributes g.status then [g.overall_score] else [])
    ++ (if contributes c.status then [c.overall_score] else [])

/-- `consensus["average_score"]`: initialised to `0.0` and overwritten with
`sum(scores)/len(scores)` only when `scores` is non-empty (lines 317,
334–335). -/
def average_score (g c : ToolResult) : ℚ :=
  let scores := consensus_scores g c
  if scores.isEmpty then 0 else scores.sum / (scores.length : ℚ)

/-! ## Convergence Controller

`IterativeCodeImprover.run_iteration` (lines 470–501) and `run` (lines
518–526). -/

/-- The convergence test of `run_iteration` line 491 /
`run` line 521: `consensus["average_score"] >= self.target_score`. -/
def iterationConverged (avg target : ℚ) : Bool :=
  decide (target ≤ avg)

/-- Whether `run_iteration` reaches a repair attempt: only when the target
is not met, a further iteration remains (line 496), and `apply_improvements`
has a non-empty consensus set to work on (lines 415–417). -/
def repairAttempted (avg target : ℚ) (iteration maxIterations : Nat)
    (consensusCount : Nat) : Bool :=
  if target ≤ avg then false
  else if iteration < maxIterations then decide (consensusCount ≠ 0)
  else false

/-- The iteration loop of `run`, abstracted over the per-iteration average
scores: counts the iterations executed before the loop breaks on
convergence (or the iteration budget runs out). -/
def run_loop : List ℚ → ℚ → Nat
  | [], _ => 0
  | a :: rest, target => 1 + if target ≤ a then 0 else run_loop rest target

/-! ## Consensus Matcher — locality strategy

`find_consensus_issues` in `quick_cross_review_and_fix.py` (lines
183–217). -/

/-- The line-proximity test at line 206:
`g_file == c_file and abs(g_line - c_line) <= 5`. -/
def locality_match (gFile : String) (gLine : Int) (cFile : String)
    (cLine : Int) : Bool :=
  gFile == cFile && decide ((gLine - cLine).natAbs ≤ 5)

/-- An issue as consumed by the locality matcher: the fields read through
`issue.get("file", "")`, `issue.get("line", 0)`, `issue.get("severity", "")`
(the `get` defaults are folded into the fields). -/
structure QIssue where
  file : String
  line : Int
  severity : String
deriving DecidableEq

/-- A consensus entry as appended at lines 207–213. -/
structure CEntry where
  file : String
  line : Int
  severity : String
  gemini_issue : QIssue
  codex_issue : QIssue
deriving DecidableEq

/-- The locality test applied to two issue records. -/
def qMatch (g c : QIssue) : Bool :=
  locality_match g.file g.line c.file c.line

/-- `find_consensus_issues`: for each Gemini issue in order, the first
Codex issue passing the locality test (the inner loop `break`s on the
first match); Gemini issues matching nothing produce no entry. -/
def find_consensus_issues (gs cs : List QIssue) : List CEntry :=
  gs.filterMap (fun g =>
    (cs.find? (fun c => qMatch g c)).map (fun c =>
      ⟨g.file, g.line, g.severity, g, c⟩))

/-! ## Consensus Matcher — keyword strategy

`IterativeCodeImprover.generate_consensus_report` (lines 349–368).  The
source compares each keyword against `str(g_issue).lower()` — the Python
string rendering of the **whole** issue dict, file names and keys
included, not just its description field. -/

/-- The fixed vocabulary at lines 356–358, in source order. -/
def common_keywords : List (List Char) :=
  ["device".data, "gpu".data, "cuda".data, "hard-coded".data,
   "hardcoded".data, "eval".data, "train".data, "mode".data,
   "dropout".data, "error handling".data, "exception".data,
   "validation".data]

/-- Python `str.lower()` (ASCII case folding). -/
def lowerL (l : List Char) : List Char := l.map Char.toLower

/-- `keyword in g_desc and keyword in c_desc` where the two sides are the
lower-cased renderings of the two issues (line 360). -/
def sharedKW (k g c : List Char) : Bool :=
  pyContains (lowerL g) k && pyContains (lowerL c) k

/-- The inner keyword loop for one pair of issue renderings: the first
vocabulary keyword contained in both lower-cased texts (the `break` at
line 367 stops after the first hit). -/
def kwMatch (g c : List Char) : Option (List Char) :=
  common_keywords.find? (fun k => sharedKW k g c)

/-- A consensus entry as appended at lines 361–366. -/
structure KWEntry where
  keyword : List Char
  gemini_finding : List Char
  codex_finding : List Char
deriving DecidableEq

/-- The double loop over `gemini_issues × codex_issues` building
`consensus_issues` (lines 351–367): at most one entry per pair, produced
from the first shared keyword. -/
def consensus_issues_kw (gs cs : List (List Char)) : List KWEntry :=
  gs.flatMap (fun g =>
    cs.filterMap (fun c => (kwMatch g c).map (fun k => ⟨k, g, c⟩)))

/-- An issue dict of the `critical_issues` schema requested from the
reviewers: `{"file": ..., "line": ..., "issue": ..., "severity": ...}`. -/
structure CritIssue where
  file : List Char
  line : Int
  issue : List Char
  severity : List Char
deriving DecidableEq

/-- The single-quote character used by Python's `str` rendering of dicts. -/
def sq : Char := Char.ofNat 39

/-- A Python single-quoted string literal. -/
def pyQuoted (s : List Char) : List Char := sq :: s ++ [sq]

/-- Python's `str(...)` of a `critical_issues` dict in its schema key
order. -/
def pyReprCrit (i : CritIssue) : List Char :=
  "\x7b".data ++ pyQuoted "file".data ++ ": ".data ++ pyQuoted i.file
    ++ ", ".data ++ pyQuoted "line".data ++ ": ".data ++ (toString i.line).data
    ++ ", ".data ++ pyQuoted "issue".data ++ ": ".data ++ pyQuoted i.issue
    ++ ", ".data ++ pyQuoted "severity".data ++ ": ".data
    ++ pyQuoted i.severity ++ "\x7d".data

/-- The keyword matcher as actually applied to two issue dicts:
`str(g_issue).lower()` / `str(c_issue).lower()` at lines 352, 354. -/
def kwMatchIssue (a b : CritIssue) : Option (List Char) :=
  kwMatch (pyReprCrit a) (pyReprCrit b)

/-! ## Entitlement (subscription) failure classification

`IterativeCodeImprover.run_codex_review` (lines 214–227) and the quick
script's `run_codex_review` (lines 144–157).  Neither path ever consults
the process return code; the `"upgrade to Plus"` check runs on
`stdout + stderr` **before** any JSON parsing is attempted. -/

/-- The entitlement-denial marker checked at lines 225 / 154. -/
def plusMarker : List Char := "upgrade to Plus".data

/-- Status classification of `IterativeCodeImprover.run_codex_review`:
marker present → `"failed"`; otherwise `"success"` when the JSON decode
succeeds and `"partial"` (modelled as `fallback`) when it raises.
`returncode` is accepted but — exactly as in the source — never read. -/
def run_codex_review_status (returncode : Int) (stdout stderr : List Char)
    (jsonParseOk : Bool) : RStatus :=
  let output := stdout ++ stderr
  if pyContains output plusMarker then .failed
  else if jsonParseOk then .success
  else .fallback

/-- Status classification of the quick script's `run_codex_review`:
marker present → `"skipped"` (line 156); otherwise `"success"` on a JSON
decode and `"failed"` when anything raises.  `returncode` is again never
read. -/
def quick_codex_review_status (returncode : Int) (stdout stderr : List Char)
    (jsonParseOk : Bool) : RStatus :=
  let output := stdout ++ stderr
  if pyContains output plusMarker then .skipped
  else if jsonParseOk then .success
  else .failed

/-! ## Review aggregation

`CodeReviewWorkflowGemini._aggregate_reviews` (lines 271–327).
`review_code_file` returns records whose `status` is `"success"` or
`"error"` and nothing else, so the status type has those two values.  The
JSON extraction + `json.loads` attempt inside the aggregation loop (lines
282–299) is modelled by the `parsed` field: `none` when the `try` block
failed, `some` of the decoded fields otherwise. -/

/-- Status of a single-file review record. -/
inductive FStatus where
  | success
  | error
deriving DecidableEq

/-- An issue as counted by the aggregation: only its `severity` field is
consulted, through `i.get("severity")` (hence `Option`). -/
structure RIssue where
  severity : Option String
deriving DecidableEq

/-- The decoded review JSON: the `overall_score` and `issues` keys may each
be absent (lines 293–297 guard on key presence). -/
structure ParsedReview where
  overall_score : Option ℚ
  issues : Option (List RIssue)

/-- One per-file review record as consumed by `_aggregate_reviews`. -/
structure FileReview where
  status : FStatus
  parsed : Option ParsedReview

/-- The aggregate summary dict (line 315–325).  The source additionally
rounds `average_score` to two decimals for display; no claim depends on
that rounding, so the exact value is kept. -/
structure AggSummary where
  total_files : Nat
  reviewed_successfully : Nat
  review_failed : Nat
  average_score : ℚ
  total_issues : Nat
  critical_issues : Nat
  high_issues : Nat
  medium_issues : Nat
  low_issues : Nat

/-- `successful_reviews = [r for r in reviews if r["status"] == "success"]`. -/
def successful_reviews (reviews : List FileReview) : List FileReview :=
  reviews.filter (fun r => r.status == .success)

/-- `failed_reviews = [r for r in reviews if r["status"] == "error"]`. -/
def failed_reviews (reviews : List FileReview) : List FileReview :=
  reviews.filter (fun r => r.status == .error)

/-- `all_scores`: the `overall_score` of each successful review whose JSON
parsed and carried the key. -/
def all_scores (reviews : List FileReview) : List ℚ :=
  (successful_reviews reviews).filterMap
    (fun r => r.parsed.bind (fun p => p.overall_score))

/-- `all_issues`: concatenation of the `issues` lists of each successful
review whose JSON parsed and carried the key. -/
def all_issues (reviews : List FileReview) : List RIssue :=
  (successful_reviews reviews).flatMap
    (fun r => (r.parsed.bind (fun p => p.issues)).getD [])

/-- One severity bucket: issues whose `severity` equals the given exact
(lower-case) string, per lines 305–308. -/
def sevCount (issues : List RIssue) (s : String) : Nat :=
  (issues.filter (fun i => i.severity == some s)).length

/-- `_aggregate_reviews`. -/
def aggregate_reviews (reviews : List FileReview) : AggSummary :=
  let scores := all_scores reviews
  let issues := all_issues reviews
  { total_files := reviews.length
    reviewed_successfully := (successful_reviews reviews).length
    review_failed := (failed_reviews reviews).length
    average_score := if scores.isEmpty then 0 else scores.sum / (scores.length : ℚ)
    total_issues := issues.length
    critical_issues := sevCount issues "critical"
    high_issues := sevCount issues "high"
    medium_issues := sevCount issues "medium"
    low_issues := sevCount issues "low" }

/-! ## Claim-side definitions

Definitions below formalise wordings of the specification itself, for the
claims the code refutes; they are **not** translations of the source. -/

/-- Formalised from the claim's words (C8): the text's lines, split on
newlines. -/
def pyLines (t : List Char) : List (List Char) := t.splitOn '\n'

/-- Formalised from the claim's words (C8): a line *begins with* one of the
severity keywords (case-insensitively, as the regex is IGNORECASE). -/
def lineStartsWithSeverity (l : List Char) : Bool :=
  sevKeywords.any (fun kw => ciStarts kw l)

/-! ## Helper lemmas -/

/-- `find?` returns the first satisfying element: everything before it in
the list fails the predicate. -/
theorem find?_first {α : Type} {p : α → Bool} :
    ∀ {l : List α} {a : α}, l.find? p = some a →
      ∃ l1 l2, l = l1 ++ a :: l2 ∧ ∀ x ∈ l1, p x = false := by
  intro l
  induction l with
  | nil => intro a h; simp [List.find?] at h
  | cons x t ih =>
    intro a h
    cases hx : p x with
    | true =>
      rw [List.find?_cons_of_pos _ hx, Option.some_inj] at h
      exact ⟨[], t, by simp [h], by simp⟩
    | false =>
      rw [List.find?_cons_of_neg _ (by simp [hx])] at h
      obtain ⟨l1, l2, hl, hfail⟩ := ih h
      refine ⟨x :: l1, l2, by simp [hl], ?_⟩
      intro y hy
      rcases List.mem_cons.mp hy with rfl | hy'
      · exact hx
      · exact hfail y hy'

/-! ## C1 — convergence boundary -/

/-- **C1.** The iteration converges exactly when `averageScore ≥ targetScore`
(`run_iteration` line 491), the boundary is inclusive, a converged iteration
never reaches a repair attempt (the early `return` at line 493 precedes
`apply_improvements`), and the session loop of `run` stops after iteration 1
when its score already meets the target (line 521). -/
theorem c1_convergence_boundary :
    (∀ avg target : ℚ, iterationConverged avg target = true ↔ target ≤ avg)
    ∧ (∀ target : ℚ, iterationConverged target target = true)
    ∧ (∀ (avg target : ℚ) (it mx n : Nat),
        iterationConverged avg target = true →
          repairAttempted avg target it mx n = false)
    ∧ (∀ (avg target : ℚ) (rest : List ℚ),
        target ≤ avg → run_loop (avg :: rest) target = 1) := by
  refine ⟨?_, ?_, ?_, ?_⟩
  · intro avg target; simp [iterationConverged]
  · intro target; simp [iterationConverged]
  · intro avg target it mx n h
    rw [iterationConverged, decide_eq_true_iff] at h
    simp [repairAttempted, h]
  · intro avg target rest h
    simp [run_loop, h]

/-- Witness for C1 at the spec's own scenario: `targetScore = 8.0`,
iteration 1 `averageScore = 8.0`. -/
theorem c1_convergence_boundary_witness :
    iterationConverged 8 8 = true
    ∧ repairAttempted 8 8 1 5 3 = false
    ∧ run_loop [8] 8 = 1 := by
  have h := c1_convergence_boundary
  exact ⟨h.2.1 8, h.2.2.1 8 8 1 5 3 (h.2.1 8), h.2.2.2 8 8 [] le_rfl⟩

/-! ## C2 — average over contributing providers -/

/-- **C2.** `average_score` is the arithmetic mean of exactly the providers
whose status is Success or PartialSuccess; Failed and Skipped contribute
nothing; with no contributing provider the average is 0; one Success at 9
plus one Failed gives 9, not 4.5. -/
theorem c2_average_score_contributors :
    (∀ (gs cs : RStatus) (x y : ℚ),
      average_score ⟨gs, x⟩ ⟨cs, y⟩ =
        if contributes gs then
          (if contributes cs then (x + y) / 2 else x)
        else if contributes cs then y else 0)
    ∧ contributes .success = true ∧ contributes .fallback = true
    ∧ contributes .failed = false ∧ contributes .skipped = false
    ∧ (∀ y : ℚ, average_score ⟨.success, 9⟩ ⟨.failed, y⟩ = 9) := by
  refine ⟨?_, rfl, rfl, rfl, rfl, ?_⟩
  · intro gs cs x y
    cases gs <;> cases cs <;>
      simp [average_score, consensus_scores, contributes]
  · intro y
    simp [average_score, consensus_scores, contributes]

/-! ## C3 — locality match boundary -/

/-- **C3.** Two located issues match iff their file strings are identical
and their line delta is at most 5; delta 5 matches, delta 6 does not, and
distinct files never match whatever the lines
(`find_consensus_issues` line 206). -/
theorem c3_locality_match_boundary :
    (∀ (gf cf : String) (gl cl : Int),
      locality_match gf gl cf cl = true ↔ gf = cf ∧ (gl - cl).natAbs ≤ 5)
    ∧ locality_match "x.py" 10 "x.py" 15 = true
    ∧ locality_match "x.py" 10 "x.py" 16 = false
    ∧ (∀ gl cl : Int, locality_match "x.py" gl "y.py" cl = false) := by
  refine ⟨?_, by decide, by decide, ?_⟩
  · intro gf cf gl cl
    simp [locality_match]
  · intro gl cl
    have h : ("x.py" == "y.py") = false := by decide
    simp [locality_match, h]

/-! ## C7 — first match wins per Gemini-side issue -/

/-- **C7 (amended).** In the locality matcher, the first Codex match wins
per Gemini-side issue, so each Gemini issue yields at most one entry and the
entry list is no longer than the Gemini list; a Gemini issue matching no
Codex issue is silently dropped.  (A Codex-side issue may still appear in
several entries — see the counterexample.) -/
theorem c7_first_match_amended (gs cs : List QIssue) (g gm c : QIssue)
    (h1 : ∀ x ∈ cs, qMatch gm x = false)
    (h2 : cs.find? (fun x => qMatch g x) = some c) :
    find_consensus_issues (gm :: gs) cs = find_consensus_issues gs cs
    ∧ find_consensus_issues (g :: gs) cs
        = ⟨g.file, g.line, g.severity, g, c⟩ :: find_consensus_issues gs cs
    ∧ (find_consensus_issues gs cs).length ≤ gs.length := by
  have hnone : cs.find? (fun x => qMatch gm x) = none := by
    rw [List.find?_eq_none]; intro x hx; simp [h1 x hx]
  refine ⟨?_, ?_, ?_⟩
  · simp [find_consensus_issues, List.filterMap_cons, hnone]
  · simp [find_consensus_issues, List.filterMap_cons, h2]
  · exact List.length_filterMap_le _ _

/-- Witness for C7: a non-matching Gemini issue is dropped; a matching one
produces exactly the entry built from the first matching Codex issue. -/
theorem c7_first_match_amended_witness :
    find_consensus_issues [⟨"z.py", 10, "LOW"⟩] [⟨"x.py", 11, "HIGH"⟩] = []
    ∧ find_consensus_issues [⟨"x.py", 10, "HIGH"⟩] [⟨"x.py", 11, "HIGH"⟩]
        = [⟨"x.py", 10, "HIGH", ⟨"x.py", 10, "HIGH"⟩, ⟨"x.py", 11, "HIGH"⟩⟩] := by
  have h := c7_first_match_amended [] [⟨"x.py", 11, "HIGH"⟩]
    ⟨"x.py", 10, "HIGH"⟩ ⟨"z.py", 10, "LOW"⟩ ⟨"x.py", 11, "HIGH"⟩
    (by decide) (by decide)
  exact ⟨h.1.trans rfl, h.2.1.trans rfl⟩

/-- Counterexample for C7 as stated: the claim says *no issue from either
provider* appears in more than one consensus entry, but two Gemini issues
within range of the same Codex issue each produce an entry containing it —
the Codex issue `("x.py", 11)` appears twice. -/
theorem c7_counterexample :
    (find_consensus_issues
        [⟨"x.py", 10, "HIGH"⟩, ⟨"x.py", 12, "HIGH"⟩]
        [⟨"x.py", 11, "HIGH"⟩]).map (fun e => e.codex_issue)
      = [⟨"x.py", 11, "HIGH"⟩, ⟨"x.py", 11, "HIGH"⟩] := by decide

/-! ## C9 — entitlement denial is never Success -/

/-- **C9 (amended).** A Codex invocation whose combined `stdout + stderr`
contains the `"upgrade to Plus"` marker is never classified Success,
whatever the return code and however the JSON parse would have gone: the
iterative workflow classifies it `failed`, the quick workflow `skipped`. -/
theorem c9_entitlement_amended (returncode : Int) (stdout stderr : List Char)
    (jsonParseOk : Bool)
    (h : pyContains (stdout ++ stderr) plusMarker = true) :
    run_codex_review_status returncode stdout stderr jsonParseOk = .failed
    ∧ run_codex_review_status returncode stdout stderr jsonParseOk ≠ .success
    ∧ quick_codex_review_status returncode stdout stderr jsonParseOk = .skipped
    ∧ quick_codex_review_status returncode stdout stderr jsonParseOk ≠ .success := by
  have h1 : run_codex_review_status returncode stdout stderr jsonParseOk = .failed := by
    simp [run_codex_review_status, h]
  have h2 : quick_codex_review_status returncode stdout stderr jsonParseOk = .skipped := by
    simp [quick_codex_review_status, h]
  exact ⟨h1, by simp [h1], h2, by simp [h2]⟩

/-- Witness for C9: the marker inside stdout of a zero-exit invocation. -/
theorem c9_entitlement_amended_witness :
    run_codex_review_status 0 "Please upgrade to Plus.".data [] true = .failed
    ∧ quick_codex_review_status 0 "Please upgrade to Plus.".data [] true = .skipped := by
  have h := c9_entitlement_amended 0 "Please upgrade to Plus.".data [] true (by decide)
  exact ⟨h.1, h.2.2.1⟩

/-- Counterexample for C9 as stated: the claim says the outcome is
classified `Failed`, but the quick workflow classifies an entitlement-denied
zero-exit invocation as `skipped`, not `failed`. -/
theorem c9_counterexample :
    quick_codex_review_status 0 "upgrade to Plus".data [] true = .skipped
    ∧ quick_codex_review_status 0 "upgrade to Plus".data [] true ≠ .failed := by
  constructor <;> decide

/-! ## C4 — keyword consensus matching -/

/-- Helper for C4: at most one consensus entry is produced per
(gemini, codex) issue pair. -/
theorem kw_entries_pair_bound (gs cs : List (List Char)) :
    (consensus_issues_kw gs cs).length ≤ gs.length * cs.length := by
  induction gs with
  | nil => simp [consensus_issues_kw]
  | cons g t ih =>
    have hstep : (consensus_issues_kw (g :: t) cs).length
        = (cs.filterMap (fun c => (kwMatch g c).map
            (fun k => (⟨k, g, c⟩ : KWEntry)))).length
          + (consensus_issues_kw t cs).length := by
      simp [consensus_issues_kw, List.flatMap_cons]
    rw [hstep]
    calc (cs.filterMap (fun c => (kwMatch g c).map
            (fun k => (⟨k, g, c⟩ : KWEntry)))).length
          + (consensus_issues_kw t cs).length
        ≤ cs.length + t.length * cs.length :=
          Nat.add_le_add (List.length_filterMap_le _ _) ih
      _ = (g :: t).length * cs.length := by
          simp [List.length_cons, Nat.succ_mul, Nat.add_comm]

/-- **C4 (amended).** The keyword matcher operates on the lower-cased
Python string rendering of each *whole* issue record (`str(g_issue).lower()`
at line 352) — not just the free-text description: a pair matches iff some
vocabulary keyword is a substring of both renderings; the first shared
keyword in vocabulary order is the one reported and stops the search for the
pair, so each pair yields at most one entry; the spec's motivating example
(descriptions sharing "device") does match. -/
theorem c4_keyword_match_amended :
    (∀ g c : List Char,
      (kwMatch g c).isSome = true ↔ ∃ k ∈ common_keywords, sharedKW k g c = true)
    ∧ (∀ (g c k : List Char), kwMatch g c = some k →
        k ∈ common_keywords ∧ sharedKW k g c = true
        ∧ ∃ l1 l2, common_keywords = l1 ++ k :: l2
            ∧ ∀ k' ∈ l1, sharedKW k' g c = false)
    ∧ kwMatch "hard-coded device string".data "GPU device not configurable".data
        = some "device".data
    ∧ (∀ gs cs : List (List Char),
        (consensus_issues_kw gs cs).length ≤ gs.length * cs.length) := by
  refine ⟨?_, ?_, by decide, kw_entries_pair_bound⟩
  · intro g c
    simp [kwMatch, List.find?_isSome]
  · intro g c k h
    rw [kwMatch] at h
    have h1 := List.mem_of_find?_eq_some h
    have h2 := List.find?_some h
    exact ⟨h1, h2, find?_first h⟩

/-- Witness for C4 at the spec's own pair of descriptions. -/
theorem c4_keyword_match_amended_witness :
    "device".data ∈ common_keywords
    ∧ sharedKW "device".data "hard-coded device string".data
        "GPU device not configurable".data = true := by
  have h := c4_keyword_match_amended
  have h2 := h.2.1 "hard-coded device string".data
    "GPU device not configurable".data "device".data h.2.2.1
  exact ⟨h2.1, h2.2.1⟩

/-- Counterexample for C4 as stated: the claim says two issues match iff a
vocabulary keyword occurs in both *descriptions*, and that issues sharing no
vocabulary term never match.  But the source scans `str(issue).lower()` —
the whole dict — so two issues whose descriptions (`"AAA"` and `"BBB"`)
share no vocabulary term still match, on the keyword `"train"` occurring in
the `file` field `"train.py"` of both renderings. -/
theorem c4_counterexample :
    kwMatchIssue ⟨"train.py".data, 10, "AAA".data, "HIGH".data⟩
        ⟨"train.py".data, 22, "BBB".data, "HIGH".data⟩ = some "train".data
    ∧ (∀ k ∈ common_keywords, sharedKW k "AAA".data "BBB".data = false) := by
  constructor
  · decide
  · decide

/-! ## C5 and C8 — the heuristic text parser -/

/-- Every captured score value is a nonnegative rational. -/
theorem scoreVal_nonneg (d1 d2 : List Char) : 0 ≤ scoreVal d1 d2 := by
  unfold scoreVal
  positivity

/-- Every value collected by the score scanner is nonnegative. -/
theorem scanScores_nonneg (t : List Char) :
    ∀ v ∈ scanScores t, 0 ≤ v := by
  intro v hv
  obtain ⟨d, -, rfl⟩ := List.mem_map.mp hv
  exact scoreVal_nonneg d.1 d.2

/-- **C5 (amended).** `parse_text_review` is a total function (it never
raises); for **every** input its score is nonnegative, it is exactly 5 when
no `score .../10` pattern occurs, and it is at most 10 whenever every score
value matched in the text is at most 10.  (Matched values above 10 — see the
counterexample — propagate unclamped, so only the upper bound needs that
hypothesis.) -/
theorem c5_parse_score_bounds (t : List Char) :
    0 ≤ (parse_text_review t).overall_score
    ∧ (scanScores t = [] → (parse_text_review t).overall_score = 5)
    ∧ ((∀ v ∈ scanScores t, v ≤ 10) →
        (parse_text_review t).overall_score ≤ 10) := by
  have hnn : ∀ v ∈ scanScores t, 0 ≤ v := scanScores_nonneg t
  by_cases he : scanScores t = []
  · refine ⟨?_, fun _ => ?_, fun _ => ?_⟩ <;>
      simp [parse_text_review, he] <;> norm_num
  · have hne : (scanScores t).isEmpty = false := by
      cases hsc : scanScores t with
      | nil => exact absurd hsc he
      | cons a l => rfl
    have hlen : 0 < (scanScores t).length := List.length_pos.mpr he
    have hpos : (0 : ℚ) < ((scanScores t).length : ℚ) := by exact_mod_cast hlen
    have hsum_nn : 0 ≤ (scanScores t).sum := List.sum_nonneg hnn
    refine ⟨?_, fun hcon => absurd hcon he, fun hb => ?_⟩
    · simp only [parse_text_review, hne, Bool.false_eq_true, if_false]
      exact div_nonneg hsum_nn hpos.le
    · have hsum_le : (scanScores t).sum ≤ (scanScores t).length • (10 : ℚ) :=
        List.sum_le_card_nsmul _ _ hb
      rw [nsmul_eq_mul] at hsum_le
      simp only [parse_text_review, hne, Bool.false_eq_true, if_false]
      rw [div_le_iff₀ hpos]
      linarith [hsum_le]

/-- Witness for C5 on text with no score pattern at all, discharging both
inner hypotheses there. -/
theorem c5_parse_score_bounds_witness :
    0 ≤ (parse_text_review "no numeric ratings at all".data).overall_score
    ∧ (parse_text_review "no numeric ratings at all".data).overall_score ≤ 10
    ∧ (parse_text_review "no numeric ratings at all".data).overall_score = 5 := by
  have htok : scanScoreTokens "no numeric ratings at all".data = [] := by decide
  have hempty : scanScores "no numeric ratings at all".data = [] := by
    simp [scanScores, htok]
  have h := c5_parse_score_bounds "no numeric ratings at all".data
  exact ⟨h.1,
    h.2.2 (by intro v hv; rw [hempty] at hv; exact absurd hv (List.not_mem_nil v)),
    h.2.1 hempty⟩

/-- Counterexample for C5 as stated: the claim promises an `overallScore`
in `[0, 10]` for every input, but the parser does not clamp: the text
`"score: 15/10"` parses to an overall score of 15. -/
theorem c5_counterexample :
    (parse_text_review "score: 15/10".data).overall_score = 15
    ∧ ¬((parse_text_review "score: 15/10".data).overall_score ≤ 10) := by
  have htok : scanScoreTokens "score: 15/10".data = [("15".data, [])] := by decide
  have hval : (parse_text_review "score: 15/10".data).overall_score = 15 := by
    simp [parse_text_review, scanScores, htok, scoreVal, digitsToNat]
  refine ⟨hval, ?_⟩
  rw [hval]
  norm_num

/-- **C8 (amended).** The fallback computes the overall score as the average
of all `score .../10` matches (default 5 when none), and collects as issues
the matches of a severity keyword followed by `[:\s]+` and free text up to
end of line, occurring *anywhere* in a line (not only at line start),
keeping at most 5, each with no line number (the `TextIssue` record has no
line field).  Concrete checks: two score matches average to 15/2; a
severity keyword in mid-line is collected; six severity matches are cut to
the first five. -/
theorem c8_text_fallback_amended :
    (∀ t : List Char,
      (parse_text_review t).critical_issues = (scanSevs t).take 5
      ∧ (parse_text_review t).critical_issues.length ≤ 5
      ∧ (parse_text_review t).overall_score
          = (if (scanScores t).isEmpty then 5
             else (scanScores t).sum / ((scanScores t).length : ℚ)))
    ∧ (parse_text_review "score: 7/10 ok\nscore: 8/10".data).overall_score = 15 / 2
    ∧ (scanSevs "prefix HIGH: bad\nCRITICAL: worse".data).length = 2
    ∧ (parse_text_review
          "CRITICAL: a\nHIGH: b\nMEDIUM: c\nLOW: d\nHIGH: e\nLOW: f".data).critical_issues
        = [⟨"CRITICAL".data, "a".data⟩, ⟨"HIGH".data, "b".data⟩,
           ⟨"MEDIUM".data, "c".data⟩, ⟨"LOW".data, "d".data⟩,
           ⟨"HIGH".data, "e".data⟩] := by
  have htok : scanScoreTokens "score: 7/10 ok\nscore: 8/10".data
      = [("7".data, []), ("8".data, [])] := by decide
  refine ⟨?_, ?_, by decide, by decide⟩
  · intro t
    refine ⟨rfl, ?_, rfl⟩
    simp [parse_text_review, List.length_take]
  · simp [parse_text_review, scanScores, htok, scoreVal, digitsToNat]
    norm_num

/-- Counterexample for C8 as stated: the claim says only *lines beginning
with* a severity keyword are collected, but the severity regex is not
anchored: in `"ab HIGH: oops"` the sole line starts with `"ab"`, yet an
issue is collected from the mid-line `HIGH:` match. -/
theorem c8_counterexample :
    (parse_text_review "ab HIGH: oops".data).critical_issues
        = [⟨"HIGH".data, "oops".data⟩]
    ∧ (∀ l ∈ pyLines "ab HIGH: oops".data, lineStartsWithSeverity l = false) := by
  constructor <;> decide

/-! ## C10 — aggregation invariants -/

/-- An issue whose severity is none of the four lower-case bucket names. -/
def offSeverity (i : RIssue) : Prop :=
  i.severity ≠ some "critical" ∧ i.severity ≠ some "high"
    ∧ i.severity ≠ some "medium" ∧ i.severity ≠ some "low"

instance (i : RIssue) : Decidable (offSeverity i) := by
  unfold offSeverity; infer_instance

/-- Statuses partition the review list: total = successes + failures. -/
theorem length_filter_status (l : List FileReview) :
    l.length = (successful_reviews l).length + (failed_reviews l).length := by
  induction l with
  | nil => rfl
  | cons r t ih =>
    cases hs : r.status <;>
      simp_all [successful_reviews, failed_reviews, List.filter_cons, hs] <;>
      omega

/-- One severity bucket over a cons cell. -/
theorem sevCount_cons (i : RIssue) (t : List RIssue) (s : String) :
    sevCount (i :: t) s = sevCount t s + (if i.severity = some s then 1 else 0) := by
  by_cases h : i.severity = some s <;> simp [sevCount, List.filter_cons, h]

/-- An issue can land in at most one of the four buckets. -/
theorem sevIndicator_le (o : Option String) :
    (if o = some "critical" then 1 else 0) + (if o = some "high" then 1 else 0)
      + (if o = some "medium" then 1 else 0)
      + (if o = some "low" then 1 else 0) ≤ 1 := by
  by_cases h1 : o = some "critical" <;> by_cases h2 : o = some "high" <;>
    by_cases h3 : o = some "medium" <;> by_cases h4 : o = some "low" <;>
    simp_all

/-- The four buckets never over-count the issue list. -/
theorem sevBuckets_le (issues : List RIssue) :
    sevCount issues "critical" + sevCount issues "high"
      + sevCount issues "medium" + sevCount issues "low" ≤ issues.length := by
  induction issues with
  | nil => simp [sevCount]
  | cons i t ih =>
    simp only [sevCount_cons, List.length_cons]
    have h := sevIndicator_le i.severity
    omega

/-- With an off-bucket issue present, the buckets strictly under-count. -/
theorem sevBuckets_lt (issues : List RIssue)
    (h : ∃ i ∈ issues, offSeverity i) :
    sevCount issues "critical" + sevCount issues "high"
      + sevCount issues "medium" + sevCount issues "low" < issues.length := by
  induction issues with
  | nil => obtain ⟨i, hi, -⟩ := h; exact absurd hi (List.not_mem_nil i)
  | cons i t ih =>
    obtain ⟨j, hj, hoff⟩ := h
    simp only [sevCount_cons, List.length_cons]
    rcases List.mem_cons.mp hj with rfl | hjt
    · obtain ⟨h1, h2, h3, h4⟩ := hoff
      have hle := sevBuckets_le t
      simp only [h1, h2, h3, h4, if_false]
      omega
    · have hlt := ih ⟨j, hjt, hoff⟩
      have h := sevIndicator_le i.severity
      omega

/-- **C10.** For every review list, the summary's `total_files` equals
`reviewed_successfully + review_failed`, and the four severity buckets —
which count exactly the issues whose severity equals the lower-case strings
`"critical"`, `"high"`, `"medium"`, `"low"` — sum to at most
`total_issues`, strictly whenever an issue carries any other severity
spelling (such as the upper-case `"HIGH"` requested by the CLI prompts). -/
theorem c10_aggregate_invariants :
    (∀ reviews : List FileReview,
      (aggregate_reviews reviews).total_files
          = (aggregate_reviews reviews).reviewed_successfully
            + (aggregate_reviews reviews).review_failed
      ∧ (aggregate_reviews reviews).critical_issues
          + (aggregate_reviews reviews).high_issues
          + (aggregate_reviews reviews).medium_issues
          + (aggregate_reviews reviews).low_issues
          ≤ (aggregate_reviews reviews).total_issues)
    ∧ (∀ reviews : List FileReview,
        (∃ i ∈ all_issues reviews, offSeverity i) →
          (aggregate_reviews reviews).critical_issues
            + (aggregate_reviews reviews).high_issues
            + (aggregate_reviews reviews).medium_issues
            + (aggregate_reviews reviews).low_issues
            < (aggregate_reviews reviews).total_issues) := by
  constructor
  · intro reviews
    exact ⟨length_filter_status reviews, sevBuckets_le (all_issues reviews)⟩
  · intro reviews h
    exact sevBuckets_lt (all_issues reviews) h

/-- Witness for C10: one successful review carrying an upper-case `"HIGH"`
issue and a lower-case `"low"` issue, plus one failed review — totals
partition (2 = 1 + 1) and buckets under-count strictly (1 < 2). -/
theorem c10_aggregate_invariants_witness :
    (aggregate_reviews
        [⟨.success, some ⟨some 8, some [⟨some "HIGH"⟩, ⟨some "low"⟩]⟩⟩,
         ⟨.error, none⟩]).total_files
      = (aggregate_reviews
          [⟨.success, some ⟨some 8, some [⟨some "HIGH"⟩, ⟨some "low"⟩]⟩⟩,
           ⟨.error, none⟩]).reviewed_successfully
        + (aggregate_reviews
            [⟨.success, some ⟨some 8, some [⟨some "HIGH"⟩, ⟨some "low"⟩]⟩⟩,
             ⟨.error, none⟩]).review_failed
    ∧ (aggregate_reviews
        [⟨.success, some ⟨some 8, some [⟨some "HIGH"⟩, ⟨some "low"⟩]⟩⟩,
         ⟨.error, none⟩]).critical_issues
      + (aggregate_reviews
          [⟨.success, some ⟨some 8, some [⟨some "HIGH"⟩, ⟨some "low"⟩]⟩⟩,
           ⟨.error, none⟩]).high_issues
      + (aggregate_reviews
          [⟨.success, some ⟨some 8, some [⟨some "HIGH"⟩, ⟨some "low"⟩]⟩⟩,
           ⟨.error, none⟩]).medium_issues
      + (aggregate_reviews
          [⟨.success, some ⟨some 8, some [⟨some "HIGH"⟩, ⟨some "low"⟩]⟩⟩,
           ⟨.error, none⟩]).low_issues
      < (aggregate_reviews
          [⟨.success, some ⟨some 8, some [⟨some "HIGH"⟩, ⟨some "low"⟩]⟩⟩,
           ⟨.error, none⟩]).total_issues := by
  have h := c10_aggregate_invariants
  refine ⟨(h.1 _).1, h.2 _ ⟨⟨some "HIGH"⟩, ?_, by decide⟩⟩
  decide

/-! ## C6 — string-search and slicing lemmas -/

/-- A Python whitespace character is neither a backtick nor a brace. -/
theorem isPySpace_ne {c : Char} (h : isPySpace c = true) :
    c ≠ btick ∧ c ≠ lbrace ∧ c ≠ rbrace := by
  simp only [isPySpace, Bool.or_eq_true, beq_iff_eq] at h
  rcases h with ((((h | h) | h) | h) | h) | h <;> subst h <;>
    exact ⟨by decide, by decide, by decide⟩

/-- `findSub` hits index 0 when the needle is a prefix. -/
theorem findSub_of_isPrefixOf {hay needle : List Char}
    (h : needle.isPrefixOf hay = true) : findSub hay needle = some 0 := by
  cases hay <;> simp [findSub, h]

/-- Searching for a needle whose first character does not occur in `pre`
shifts the search past `pre`. -/
theorem findSub_append_shift (pre rest : List Char) (c0 : Char)
    (ntail : List Char) (hpre : ∀ x ∈ pre, x ≠ c0) :
    findSub (pre ++ rest) (c0 :: ntail)
      = (findSub rest (c0 :: ntail)).map (· + pre.length) := by
  induction pre with
  | nil =>
    simp only [List.nil_append, List.length_nil]
    cases findSub rest (c0 :: ntail) <;> simp
  | cons a t ih =>
    have ha : (c0 == a) = false :=
      beq_eq_false_iff_ne.mpr
        (fun he => (hpre a (List.mem_cons_self a t)) he.symm)
    have hpf : (c0 :: ntail).isPrefixOf (a :: (t ++ rest)) = false := by
      simp [List.isPrefixOf, ha]
    simp only [List.cons_append, findSub, List.append_eq, hpf,
      Bool.false_eq_true, if_false]
    rw [ih (fun x hx => hpre x (List.mem_cons_of_mem a hx))]
    cases findSub rest (c0 :: ntail) <;> simp <;> omega

/-- No occurrence at all when the needle's first character is absent. -/
theorem findSub_none_of_notin (hay : List Char) (c0 : Char) (ntail : List Char)
    (h : ∀ x ∈ hay, x ≠ c0) : findSub hay (c0 :: ntail) = none := by
  induction hay with
  | nil => simp [findSub, List.isPrefixOf]
  | cons a t ih =>
    have ha : (c0 == a) = false :=
      beq_eq_false_iff_ne.mpr (fun he => (h a (List.mem_cons_self a t)) he.symm)
    simp [findSub, List.isPrefixOf, ha,
      ih (fun x hx => h x (List.mem_cons_of_mem a hx))]

/-- `rfindSub` finds nothing when the character is absent. -/
theorem rfindSub_none_single (l : List Char) (c0 : Char)
    (h : ∀ x ∈ l, x ≠ c0) : rfindSub l [c0] = none := by
  induction l with
  | nil => simp [rfindSub, List.isPrefixOf]
  | cons a t ih =>
    have ha : (c0 == a) = false :=
      beq_eq_false_iff_ne.mpr (fun he => (h a (List.mem_cons_self a t)) he.symm)
    simp [rfindSub, ih (fun x hx => h x (List.mem_cons_of_mem a hx)),
      List.isPrefixOf, ha]

/-- The last occurrence ignores a suffix not containing the character. -/
theorem rfindSub_append_notin (a b : List Char) (c0 : Char)
    (h : ∀ x ∈ b, x ≠ c0) : rfindSub (a ++ b) [c0] = rfindSub a [c0] := by
  induction a with
  | nil =>
    simp only [List.nil_append]
    rw [rfindSub_none_single b c0 h]
    simp [rfindSub, List.isPrefixOf]
  | cons x t ih =>
    simp only [List.cons_append, rfindSub, List.append_eq]
    rw [ih]
    cases rfindSub t [c0] <;> simp [List.isPrefixOf]

/-- The last occurrence of a final character is at the last index. -/
theorem rfindSub_append_last (l : List Char) (c0 : Char) :
    rfindSub (l ++ [c0]) [c0] = some l.length := by
  induction l with
  | nil => simp [rfindSub, List.isPrefixOf]
  | cons x t ih => simp [rfindSub, ih]

/-- `pySlice` at in-range nonnegative indices is take-then-drop. -/
theorem pySlice_natCast (l : List Char) (a b : Nat)
    (ha : a ≤ l.length) (hb : b ≤ l.length) :
    pySlice l (a : Int) (b : Int) = (l.take b).drop a := by
  simp only [pySlice]
  rw [if_neg (by omega : ¬(a : Int) < 0), if_neg (by omega : ¬(b : Int) < 0)]
  have h1 : (min (a : Int) (l.length : Int)).toNat = a := by omega
  have h2 : (min (b : Int) (l.length : Int)).toNat = b := by omega
  rw [h1, h2]

/-- Slicing out the middle of a three-part concatenation. -/
theorem slice_middle (A B C : List Char) :
    pySlice (A ++ B ++ C) ((A.length : Nat) : Int)
      (((A.length + B.length : Nat)) : Int) = B := by
  rw [pySlice_natCast _ _ _ (by simp only [List.length_append]; omega)
    (by simp only [List.length_append]; omega)]
  rw [List.take_left' (by simp [List.length_append]), List.drop_left' rfl]

/-- Characters avoiding `c` in both parts avoid it in the concatenation. -/
theorem notin_append {l1 l2 : List Char} {c : Char}
    (h1 : ∀ x ∈ l1, x ≠ c) (h2 : ∀ x ∈ l2, x ≠ c) :
    ∀ x ∈ l1 ++ l2, x ≠ c := by
  intro x hx
  rcases List.mem_append.mp hx with h | h
  exacts [h1 x h, h2 x h]

/-- Characters of a braced payload avoid `c` when the braces and the body
do. -/
theorem notin_payload {mid : List Char} {c : Char} (hl : lbrace ≠ c)
    (hr : rbrace ≠ c) (hm : ∀ x ∈ mid, x ≠ c) :
    ∀ x ∈ lbrace :: (mid ++ [rbrace]), x ≠ c := by
  intro x hx
  rcases List.mem_cons.mp hx with rfl | hx
  · exact hl
  · rcases List.mem_append.mp hx with h | h
    · exact hm x h
    · rw [List.mem_singleton.mp h]; exact hr

/-- Whitespace runs contain no backtick. -/
theorem ws_ne_btick {w : List Char} (hw : ∀ c ∈ w, isPySpace c = true) :
    ∀ x ∈ w, x ≠ btick :=
  fun x hx => (isPySpace_ne (hw x hx)).1

/-- Stripping whitespace from around a braced payload returns the payload. -/
theorem stripList_sandwich (w1 mid w2 : List Char)
    (hw1 : ∀ c ∈ w1, isPySpace c = true)
    (hw2 : ∀ c ∈ w2, isPySpace c = true) :
    stripList (w1 ++ ((lbrace :: (mid ++ [rbrace])) ++ w2))
      = lbrace :: (mid ++ [rbrace]) := by
  have hw2' : ∀ c ∈ w2.reverse, isPySpace c = true :=
    fun c hc => hw2 c (List.mem_reverse.mp hc)
  unfold stripList
  rw [List.dropWhile_append_of_pos hw1]
  rw [show (lbrace :: (mid ++ [rbrace])) ++ w2
      = lbrace :: ((mid ++ [rbrace]) ++ w2) from by simp]
  rw [List.dropWhile_cons]
  simp only [show isPySpace lbrace = false from by decide, Bool.false_eq_true,
    if_false]
  rw [show (lbrace :: ((mid ++ [rbrace]) ++ w2)).reverse
      = w2.reverse ++ (rbrace :: (mid.reverse ++ [lbrace])) from by simp]
  rw [List.dropWhile_append_of_pos hw2']
  rw [List.dropWhile_cons]
  simp only [show isPySpace rbrace = false from by decide, Bool.false_eq_true,
    if_false]
  simp

/-- First occurrence of a marker that opens the remainder, when its head
character does not occur earlier. -/
theorem findSub_prefix_marker (pre rest : List Char) (c0 : Char)
    (ntail : List Char) (hpre : ∀ x ∈ pre, x ≠ c0) :
    findSub (pre ++ ((c0 :: ntail) ++ rest)) (c0 :: ntail) = some pre.length := by
  rw [findSub_append_shift pre _ _ _ hpre]
  rw [findSub_of_isPrefixOf
    (List.isPrefixOf_iff_prefix.mpr (List.prefix_append _ _))]
  simp

/-- The fenced branch shared by `run_gemini_review` and `run_codex_review`:
a ```json fence whose interior is a braced payload surrounded by whitespace
is extracted and stripped back to exactly the payload, whatever narrative
surrounds the fence (as long as neither narrative nor payload body contains
a backtick). -/
theorem extract_fenced_eq (pre w1 mid w2 post : List Char)
    (hpre : ∀ x ∈ pre, x ≠ btick)
    (hmid : ∀ x ∈ mid, x ≠ btick)
    (hw1 : ∀ c ∈ w1, isPySpace c = true)
    (hw2 : ∀ c ∈ w2, isPySpace c = true) :
    extract_json_gemini
        (pre ++ fenceJson ++ w1 ++ (lbrace :: mid ++ [rbrace]) ++ w2 ++ tick3 ++ post)
      = lbrace :: mid ++ [rbrace]
    ∧ extract_json_codex
        (pre ++ fenceJson ++ w1 ++ (lbrace :: mid ++ [rbrace]) ++ w2 ++ tick3 ++ post)
      = lbrace :: mid ++ [rbrace] := by
  have hfence_cons : fenceJson = btick :: "``json".data := by decide
  have htick_cons : tick3 = btick :: "``".data := by decide
  have hfence_len : fenceJson.length = 7 := by decide
  have hP_bt : ∀ x ∈ lbrace :: (mid ++ [rbrace]), x ≠ btick :=
    notin_payload (by decide) (by decide) hmid
  have hint_bt : ∀ x ∈ w1 ++ ((lbrace :: (mid ++ [rbrace])) ++ w2), x ≠ btick :=
    notin_append (ws_ne_btick hw1) (notin_append hP_bt (ws_ne_btick hw2))
  set I := w1 ++ ((lbrace :: (mid ++ [rbrace])) ++ w2) with hI
  set OUT := pre ++ (fenceJson ++ (I ++ (tick3 ++ post))) with hOUT
  have hbig : pre ++ fenceJson ++ w1 ++ (lbrace :: mid ++ [rbrace]) ++ w2 ++ tick3 ++ post
      = OUT := by
    rw [hOUT, hI]; simp [List.append_assoc]
  have hfind1 : findSub OUT fenceJson = some pre.length := by
    rw [hOUT, hfence_cons]
    exact findSub_prefix_marker pre _ btick _ hpre
  have hcont1 : pyContains OUT fenceJson = true := by
    rw [pyContains, hfind1]; rfl
  have hpyfind1 : pyFind OUT fenceJson = (pre.length : Int) := by
    rw [pyFind, hfind1]
  have htoNat : ((pre.length : Int) + 7).toNat = pre.length + 7 := by omega
  have hdrop : OUT.drop (pre.length + 7) = I ++ (tick3 ++ post) := by
    rw [show OUT = (pre ++ fenceJson) ++ (I ++ (tick3 ++ post)) from by
      rw [hOUT]; simp [List.append_assoc]]
    exact List.drop_left' (by simp [hfence_len])
  have hfind2 : findSub (I ++ (tick3 ++ post)) tick3 = some I.length := by
    rw [htick_cons]
    exact findSub_prefix_marker I _ btick _ (hI ▸ hint_bt)
  have hfindfrom : pyFindFrom OUT tick3 ((pre.length : Int) + 7)
      = ((pre.length + 7 + I.length : Nat) : Int) := by
    rw [pyFindFrom, htoNat, hdrop, hfind2]
  have hslice : pySlice OUT ((pre.length : Int) + 7)
      ((pre.length + 7 + I.length : Nat) : Int) = I := by
    have hc : ((pre.length : Int) + 7) = ((pre.length + 7 : Nat) : Int) := by
      push_cast; ring
    have hlen : (pre ++ fenceJson).length = pre.length + 7 := by
      simp [hfence_len]
    rw [hc]
    rw [show OUT = (pre ++ fenceJson) ++ I ++ (tick3 ++ post) from by
      rw [hOUT]; simp [List.append_assoc]]
    rw [show ((pre.length + 7 : Nat) : Int)
        = (((pre ++ fenceJson).length : Nat) : Int) from by rw [hlen]]
    rw [show ((pre.length + 7 + I.length : Nat) : Int)
        = (((pre ++ fenceJson).length + I.length : Nat) : Int) from by rw [hlen]]
    exact slice_middle _ _ _
  have hstrip : stripList I = lbrace :: (mid ++ [rbrace]) := by
    rw [hI]; exact stripList_sandwich w1 mid w2 hw1 hw2
  constructor
  · rw [hbig]
    simp only [extract_json_gemini]
    rw [if_pos hcont1, hpyfind1, hfindfrom, hslice, hstrip]
    simp
  · rw [hbig]
    simp only [extract_json_codex]
    rw [if_pos hcont1, hpyfind1, hfindfrom, hslice, hstrip]
    simp

/-- **C6 (amended).** The extraction step recovers a well-formed payload
exactly — so decoding it recovers exactly the encoded `overall_score` and
issue count — in these cases: a ```json fenced payload, for both the Gemini
and the Codex extractor, under any backtick-free narrative with a
backtick-free payload body; a bare payload whose narrative before/after is
both brace-free **and** backtick-free (backtick-freeness of narrative and
body is needed even in the bare case: a narrative containing ```json would
send the code down the fenced branch — and with no closing fence,
`find("```", ...) = -1` makes the slice end at index `-1`, truncating the
payload) for the Gemini extractor (first `{` to last `}`); and, under those
same conditions, a bare payload for the Codex extractor (last `{` to last
`}`) **only when the payload contains no nested opening brace**.  With a
nested brace — e.g. any non-empty issues array — the Codex heuristic
extracts a brace-imbalanced proper suffix instead (see the
counterexample). -/
theorem c6_extraction_amended (pre mid post w1 w2 : List Char)
    (hpre_bt : ∀ x ∈ pre, x ≠ btick) (hpre_lb : ∀ x ∈ pre, x ≠ lbrace)
    (hmid_bt : ∀ x ∈ mid, x ≠ btick)
    (hpost_bt : ∀ x ∈ post, x ≠ btick) (hpost_lb : ∀ x ∈ post, x ≠ lbrace)
    (hpost_rb : ∀ x ∈ post, x ≠ rbrace)
    (hw1 : ∀ c ∈ w1, isPySpace c = true)
    (hw2 : ∀ c ∈ w2, isPySpace c = true) :
    extract_json_gemini
        (pre ++ fenceJson ++ w1 ++ (lbrace :: mid ++ [rbrace]) ++ w2 ++ tick3 ++ post)
      = lbrace :: mid ++ [rbrace]
    ∧ extract_json_codex
        (pre ++ fenceJson ++ w1 ++ (lbrace :: mid ++ [rbrace]) ++ w2 ++ tick3 ++ post)
      = lbrace :: mid ++ [rbrace]
    ∧ extract_json_gemini (pre ++ (lbrace :: mid ++ [rbrace]) ++ post)
      = lbrace :: mid ++ [rbrace]
    ∧ ((∀ x ∈ mid, x ≠ lbrace) →
        extract_json_codex (pre ++ (lbrace :: mid ++ [rbrace]) ++ post)
          = lbrace :: mid ++ [rbrace]) := by
  have hfence_cons : fenceJson = btick :: "``json".data := by decide
  have hP_bt : ∀ x ∈ lbrace :: (mid ++ [rbrace]), x ≠ btick :=
    notin_payload (by decide) (by decide) hmid_bt
  set OUT2 := pre ++ ((lbrace :: (mid ++ [rbrace])) ++ post) with hOUT2
  have hbig2 : pre ++ (lbrace :: mid ++ [rbrace]) ++ post = OUT2 := by
    rw [hOUT2]; simp [List.append_assoc]
  have hall_bt : ∀ x ∈ OUT2, x ≠ btick := by
    rw [hOUT2]; exact notin_append hpre_bt (notin_append hP_bt hpost_bt)
  have hnofence : ¬(pyContains OUT2 fenceJson = true) := by
    rw [pyContains, hfence_cons, findSub_none_of_notin _ _ _ hall_bt]
    simp
  have hfind_lb : findSub OUT2 [lbrace] = some pre.length := by
    rw [show OUT2 = pre ++ ((lbrace :: ([] : List Char))
        ++ ((mid ++ [rbrace]) ++ post)) from by rw [hOUT2]; simp]
    exact findSub_prefix_marker pre _ lbrace [] hpre_lb
  have hcont_lb : pyContains OUT2 [lbrace] = true := by
    rw [pyContains, hfind_lb]; rfl
  have hpyfind_lb : pyFind OUT2 [lbrace] = (pre.length : Int) := by
    rw [pyFind, hfind_lb]
  have hrfind_rb : rfindSub OUT2 [rbrace]
      = some (pre.length + (mid.length + 1)) := by
    rw [show OUT2 = ((pre ++ (lbrace :: mid)) ++ [rbrace]) ++ post from by
      rw [hOUT2]; simp [List.append_assoc]]
    rw [rfindSub_append_notin _ _ _ hpost_rb, rfindSub_append_last]
    simp
  have hpyrfind_rb : pyRfind OUT2 [rbrace]
      = ((pre.length + (mid.length + 1) : Nat) : Int) := by
    rw [pyRfind, hrfind_rb]
  have hplen : (lbrace :: (mid ++ [rbrace])).length = mid.length + 2 := by
    simp
  have hslice2 : pySlice OUT2 ((pre.length : Int))
      ((pre.length + (mid.length + 2) : Nat) : Int)
      = lbrace :: (mid ++ [rbrace]) := by
    rw [show OUT2 = pre ++ (lbrace :: (mid ++ [rbrace])) ++ post from by
      rw [hOUT2]; simp [List.append_assoc]]
    rw [show ((pre.length + (mid.length + 2) : Nat) : Int)
        = ((pre.length + (lbrace :: (mid ++ [rbrace])).length : Nat) : Int)
        from by rw [hplen]]
    exact slice_middle _ _ _
  have hc2 : ((pre.length + (mid.length + 1) : Nat) : Int) + 1
      = ((pre.length + (mid.length + 2) : Nat) : Int) := by
    push_cast; ring
  refine ⟨(extract_fenced_eq pre w1 mid w2 post hpre_bt hmid_bt hw1 hw2).1,
    (extract_fenced_eq pre w1 mid w2 post hpre_bt hmid_bt hw1 hw2).2, ?_, ?_⟩
  · rw [hbig2]
    simp only [extract_json_gemini]
    rw [if_neg hnofence, if_pos hcont_lb, hpyfind_lb, hpyrfind_rb, hc2]
    exact hslice2
  · intro hmid_lb
    have hrest_lb : ∀ x ∈ (mid ++ [rbrace]) ++ post, x ≠ lbrace :=
      notin_append
        (notin_append hmid_lb
          (fun x hx => by rw [List.mem_singleton.mp hx]; decide))
        hpost_lb
    have hrfind_lb : rfindSub OUT2 [lbrace] = some pre.length := by
      rw [show OUT2 = (pre ++ [lbrace]) ++ ((mid ++ [rbrace]) ++ post) from by
        rw [hOUT2]; simp [List.append_assoc]]
      rw [rfindSub_append_notin _ _ _ hrest_lb, rfindSub_append_last]
    have hpyrfind_lb : pyRfind OUT2 [lbrace] = (pre.length : Int) := by
      rw [pyRfind, hrfind_lb]
    rw [hbig2]
    simp only [extract_json_codex]
    rw [if_neg hnofence, if_pos hcont_lb, hpyrfind_lb, hpyrfind_rb, hc2]
    exact hslice2

/-- Witness for C6: a concrete payload with brace-free body, wrapped in a
newline-padded ```json fence with narrative around it, and bare between
narrative — all four recoveries are exact. -/
theorem c6_extraction_amended_witness :
    extract_json_gemini
        ("Review: ".data ++ fenceJson ++ "\n".data
          ++ (lbrace :: "\"overall_score\": 9.5, \"issues\": []".data ++ [rbrace])
          ++ "\n".data ++ tick3 ++ " End.".data)
      = lbrace :: "\"overall_score\": 9.5, \"issues\": []".data ++ [rbrace]
    ∧ extract_json_codex
        ("Review: ".data ++ fenceJson ++ "\n".data
          ++ (lbrace :: "\"overall_score\": 9.5, \"issues\": []".data ++ [rbrace])
          ++ "\n".data ++ tick3 ++ " End.".data)
      = lbrace :: "\"overall_score\": 9.5, \"issues\": []".data ++ [rbrace]
    ∧ extract_json_gemini
        ("Review: ".data
          ++ (lbrace :: "\"overall_score\": 9.5, \"issues\": []".data ++ [rbrace])
          ++ " End.".data)
      = lbrace :: "\"overall_score\": 9.5, \"issues\": []".data ++ [rbrace]
    ∧ extract_json_codex
        ("Review: ".data
          ++ (lbrace :: "\"overall_score\": 9.5, \"issues\": []".data ++ [rbrace])
          ++ " End.".data)
      = lbrace :: "\"overall_score\": 9.5, \"issues\": []".data ++ [rbrace] := by
  have h := c6_extraction_amended "Review: ".data
    "\"overall_score\": 9.5, \"issues\": []".data " End.".data
    "\n".data "\n".data
    (by decide) (by decide) (by decide) (by decide) (by decide) (by decide)
    (by decide) (by decide)
  exact ⟨h.1, h.2.1, h.2.2.1, h.2.2.2 (by decide)⟩

/-- Counterexample for C6 as stated: the claim says the last-opening-brace
heuristic recovers the payload at the end of a narrative.  For the payload
`{"overall_score": 7.0, "issues": [{"severity": "HIGH"}]}` after a
narrative, the Codex extractor returns the brace-imbalanced suffix
`{"severity": "HIGH"}]}` — not the payload, and not any JSON object (one
opening brace against two closing ones). -/
theorem c6_counterexample :
    extract_json_codex
        ("Review complete. \x7b\"overall_score\": 7.0, \"issues\": [\x7b\"severity\": \"HIGH\"\x7d]\x7d".data)
      = "\x7b\"severity\": \"HIGH\"\x7d]\x7d".data
    ∧ "\x7b\"severity\": \"HIGH\"\x7d]\x7d".data
        ≠ "\x7b\"overall_score\": 7.0, \"issues\": [\x7b\"severity\": \"HIGH\"\x7d]\x7d".data
    ∧ ("\x7b\"severity\": \"HIGH\"\x7d]\x7d".data.count lbrace = 1
        ∧ "\x7b\"severity\": \"HIGH\"\x7d]\x7d".data.count rbrace = 2) := by
  refine ⟨by decide, by decide, by decide, by decide⟩

end DeepCode
